import Mathlib

/-!
Shallow embedding of the logical core of `src/src/App.vue` (a pip-mirror
install-command generator): suggestion filtering, keyboard navigation over
suggestions, command generation, history persistence, clipboard orchestration
and the theme toggle. Strings are Lean `String`s; JavaScript's
`String.prototype.toLowerCase` is modelled character-wise (`Char.toLower`,
which covers the ASCII package names this application manipulates);
`localStorage` is modelled as explicit optional string inputs and an explicit
list of `(key, value)` writes; the asynchronous clipboard write is modelled by
its boolean outcome.
-/

namespace PipMirror

/-- Default seed history, `defaultPackages` in App.vue line 8. -/
def defaultPackages : List String := ["pandas", "numpy", "requests", "pillow", "flask"]

/-- A mirror configuration entry: `{ url, name }` records of App.vue lines 57-74. -/
structure Mirror where
  url : String
  name : String

/-- The four compiled-in mirror entries, App.vue lines 57-74. -/
def mirrors : List Mirror :=
  [⟨"https://mirrors.aliyun.com/pypi/simple", "阿里云镜像站"⟩,
   ⟨"https://pypi.mirrors.ustc.edu.cn/simple", "中国科学技术大学镜像站"⟩,
   ⟨"https://mirrors.cloud.tencent.com/pypi/simple/", "腾讯云镜像站"⟩,
   ⟨"https://mirror.sjtu.edu.cn/pypi/web/simple/", "上海交通大学镜像站"⟩]

/-- JavaScript `s.toLowerCase()` on the character list of `s`. -/
def toLowerChars (s : String) : List Char := s.data.map Char.toLower

/-- JavaScript `hay.includes(needle)` on character lists: some tail of `hay`
starts with `needle`. -/
def containsSub : List Char → List Char → Bool
  | [], needle => needle.isEmpty
  | a :: t, needle => needle.isPrefixOf (a :: t) || containsSub t needle

/-- The reactive state of the component: `packageName`, `usedPackages`,
`showSuggestions`, `selectedIndex`, `showCopyMessage` (App.vue lines 4-10). -/
structure AppState where
  packageName : String
  usedPackages : List String
  showSuggestions : Bool
  selectedIndex : Int
  showCopyMessage : Bool
  deriving DecidableEq

/-- The `suggestions` computed property (App.vue lines 13-19): empty input gives
no suggestions; otherwise filter the history for case-insensitive substring
matches that are not strictly equal to the input. -/
def suggestionsOf (st : AppState) : List String :=
  if st.packageName = "" then []
  else st.usedPackages.filter (fun pkg =>
    containsSub (toLowerChars pkg) (toLowerChars st.packageName) && pkg != st.packageName)

/-- The suggestion dropdown is rendered iff `showSuggestions && suggestions.length`
(template, App.vue line 173). -/
def suggestionsVisible (st : AppState) : Bool :=
  st.showSuggestions && !(suggestionsOf st).isEmpty

/-- The keys the `handleKeydown` handler discriminates on; `other` stands for
every key string not matched by the switch. -/
inductive Key where
  | arrowDown
  | arrowUp
  | enter
  | escape
  | other

/-- The `handleKeydown` handler (App.vue lines 22-45). Early return when the
suggestion list is empty. JavaScript `%` is truncating, hence `Int.tmod`.
Out-of-range indexing (`suggestions.value[i]` yielding `undefined`) is modelled
by the default `""`; the handler only indexes after checking `0 ≤ selectedIndex`
and the claims only exercise in-range indices. -/
def handleKeydown (st : AppState) (k : Key) : AppState :=
  let sugg := suggestionsOf st
  if sugg.length = 0 then st
  else
    match k with
    | Key.arrowDown =>
        { st with selectedIndex := Int.tmod (st.selectedIndex + 1) sugg.length }
    | Key.arrowUp =>
        { st with selectedIndex :=
            if st.selectedIndex ≤ 0 then (sugg.length : Int) - 1 else st.selectedIndex - 1 }
    | Key.enter =>
        if 0 ≤ st.selectedIndex then
          { st with packageName := sugg.getD st.selectedIndex.toNat "",
                    showSuggestions := false }
        else st
    | Key.escape => { st with showSuggestions := false }
    | Key.other => st

/-- The `handleInput` handler (App.vue lines 47-50). -/
def handleInput (st : AppState) : AppState :=
  { st with selectedIndex := -1, showSuggestions := true }

/-- The `selectSuggestion` click handler (App.vue lines 52-55). -/
def selectSuggestion (st : AppState) (suggestion : String) : AppState :=
  { st with packageName := suggestion, showSuggestions := false }

/-- The `generateCommand` function (App.vue lines 95-98), with the read of
`packageName.value` made an explicit argument. -/
def generateCommand (mirror : Mirror) (packageName : String) : String :=
  if packageName = "" then ""
  else "pip install -i " ++ mirror.url ++ " " ++ packageName

/-- JSON escaping of one character, for `JSON.stringify` of the history. -/
def jsonEscapeChar (c : Char) : List Char :=
  if c = '"' || c = '\\' then ['\\', c] else [c]

/-- JSON string quoting, for `JSON.stringify` of the history entries. -/
def jsonQuote (s : String) : String :=
  "\"" ++ String.mk (s.data.foldr (fun c acc => jsonEscapeChar c ++ acc) []) ++ "\""

/-- `JSON.stringify` of an array of strings, as used to persist `usedPackages`. -/
def jsonStringifyArr (l : List String) : String :=
  "[" ++ String.intercalate "," (l.map jsonQuote) ++ "]"

/-- The `savePackage` function (App.vue lines 89-93): the updated history list
and the `localStorage.setItem` writes it performs. Early return (no change, no
write) when the name is empty or already present; otherwise prepend and persist. -/
def savePackage (used : List String) (pkg : String) : List String × List (String × String) :=
  if pkg = "" || used.contains pkg then (used, [])
  else
    let u := pkg :: used
    (u, [("usedPackages", jsonStringifyArr u)])

/-- The `deletePackage` function (App.vue lines 117-121): filter out every
occurrence of the name and persist the result. -/
def deletePackage (used : List String) (pkg : String) : List String × List (String × String) :=
  let u := used.filter (fun p => p != pkg)
  (u, [("usedPackages", jsonStringifyArr u)])

/-- The `copyToClipboard` function (App.vue lines 100-111), indexed by the
outcome of the awaited clipboard write. On success it runs `savePackage` on the
current input and raises `showCopyMessage`; on failure the catch block only
logs, so state is unchanged and nothing is written to storage. The 2000 ms
auto-clear timer is outside this synchronous model. -/
def copyToClipboard (writeOk : Bool) (st : AppState) : AppState × List (String × String) :=
  if writeOk then
    let r := savePackage st.usedPackages st.packageName
    ({ st with usedPackages := r.1, showCopyMessage := true }, r.2)
  else (st, [])

/-- JSON whitespace skipping. -/
def skipWs (cs : List Char) : List Char :=
  cs.dropWhile (fun c => c == ' ' || c == '\t' || c == '\n' || c == '\r')

/-- Value of one hexadecimal digit, for `\u` escapes. -/
def hexVal (c : Char) : Option Nat :=
  if '0' ≤ c ∧ c ≤ '9' then some (c.toNat - 48)
  else if 'a' ≤ c ∧ c ≤ 'f' then some (c.toNat - 87)
  else if 'A' ≤ c ∧ c ≤ 'F' then some (c.toNat - 55)
  else none

/-- The character denoted by a single-character JSON escape, if legal. -/
def jsonEscape (c : Char) : Option Char :=
  if c = '"' then some '"'
  else if c = '\\' then some '\\'
  else if c = '/' then some '/'
  else if c = 'b' then some (Char.ofNat 8)
  else if c = 'f' then some (Char.ofNat 12)
  else if c = 'n' then some '\n'
  else if c = 'r' then some '\r'
  else if c = 't' then some '\t'
  else none

/-- Body of a JSON string after its opening quote: the decoded characters and
the input remaining after the closing quote. Fuel bounds the recursion; one
unit of fuel covers at least one input character, so the input length suffices. -/
def parseStrBody : Nat → List Char → Option (List Char × List Char)
  | 0, _ => none
  | _ + 1, [] => none
  | fuel + 1, c :: rest =>
    if c = '"' then some ([], rest)
    else if c = '\\' then
      match rest with
      | [] => none
      | e :: rest2 =>
        if e = 'u' then
          match rest2 with
          | h1 :: h2 :: h3 :: h4 :: rest3 =>
            match hexVal h1, hexVal h2, hexVal h3, hexVal h4 with
            | some a, some b, some v, some d =>
              match parseStrBody fuel rest3 with
              | some (s, r) => some (Char.ofNat (((a * 16 + b) * 16 + v) * 16 + d) :: s, r)
              | none => none
            | _, _, _, _ => none
          | _ => none
        else
          match jsonEscape e with
          | some ec =>
            match parseStrBody fuel rest2 with
            | some (s, r) => some (ec :: s, r)
            | none => none
          | none => none
    else
      match parseStrBody fuel rest with
      | some (s, r) => some (c :: s, r)
      | none => none

/-- A JSON value. Numeric literals are kept as their lexeme: `JSON.parse` would
produce an IEEE double, whose value no claim depends on. -/
inductive Json where
  | null
  | bool (b : Bool)
  | num (lexeme : String)
  | str (s : String)
  | arr (elems : List Json)
  | obj (fields : List (String × Json))

/-- Consume an expected literal word, returning the remaining input. -/
def stripLit (lit cs : List Char) : Option (List Char) :=
  if lit.isPrefixOf cs then some (cs.drop lit.length) else none

/-- Split a leading run of decimal digits off the input. -/
def digitSpan (cs : List Char) : List Char × List Char :=
  (cs.takeWhile Char.isDigit, cs.dropWhile Char.isDigit)

/-- Optional exponent part of a JSON number, appended to the lexeme `acc`. -/
def parseExpPart (acc : List Char) (cs : List Char) : Option (List Char × List Char) :=
  match cs with
  | c :: r =>
    if c = 'e' ∨ c = 'E' then
      let p : List Char × List Char :=
        match r with
        | '+' :: rr => (['+'], rr)
        | '-' :: rr => (['-'], rr)
        | _ => ([], r)
      match digitSpan p.2 with
      | ([], _) => none
      | (d, r3) => some (acc ++ [c] ++ p.1 ++ d, r3)
    else some (acc, cs)
  | [] => some (acc, cs)

/-- Optional fraction part of a JSON number (then exponent), appended to `acc`. -/
def parseFracPart (acc : List Char) (cs : List Char) : Option (List Char × List Char) :=
  match cs with
  | '.' :: r =>
    match digitSpan r with
    | ([], _) => none
    | (d, r2) => parseExpPart (acc ++ ['.'] ++ d) r2
  | _ => parseExpPart acc cs

/-- A JSON numeric literal: `-? (0 | [1-9][0-9]*) frac? exp?`. -/
def parseNumLexeme (cs : List Char) : Option (List Char × List Char) :=
  let p : List Char × List Char :=
    match cs with
    | '-' :: r => (['-'], r)
    | _ => ([], cs)
  match p.2 with
  | '0' :: r => parseFracPart (p.1 ++ ['0']) r
  | c :: _ =>
    if c.isDigit then
      let q := digitSpan p.2
      parseFracPart (p.1 ++ q.1) q.2
    else none
  | [] => none

mutual

/-- One JSON value (after optional whitespace) and the remaining input. Fuel
bounds the recursion; parsing consumes fuel strictly, so the input length
plus one always suffices. -/
def parseJsonValue : Nat → List Char → Option (Json × List Char)
  | 0, _ => none
  | fuel + 1, cs =>
    match skipWs cs with
    | [] => none
    | '"' :: rest =>
      match parseStrBody (fuel + 1) rest with
      | some (s, r) => some (Json.str (String.mk s), r)
      | none => none
    | '[' :: rest =>
      match skipWs rest with
      | ']' :: r2 => some (Json.arr [], r2)
      | _ =>
        match parseJsonElems fuel rest with
        | some (l, r) => some (Json.arr l, r)
        | none => none
    | '\x7b' :: rest =>
      match skipWs rest with
      | '\x7d' :: r2 => some (Json.obj [], r2)
      | _ =>
        match parseJsonFields fuel rest with
        | some (l, r) => some (Json.obj l, r)
        | none => none
    | c :: rest =>
      if c = '-' ∨ c.isDigit then
        match parseNumLexeme (c :: rest) with
        | some (lex, r) => some (Json.num (String.mk lex), r)
        | none => none
      else
        match stripLit ['n', 'u', 'l', 'l'] (c :: rest) with
        | some r => some (Json.null, r)
        | none =>
          match stripLit ['t', 'r', 'u', 'e'] (c :: rest) with
          | some r => some (Json.bool true, r)
          | none =>
            match stripLit ['f', 'a', 'l', 's', 'e'] (c :: rest) with
            | some r => some (Json.bool false, r)
            | none => none

/-- One or more comma-separated JSON values followed by `]`. -/
def parseJsonElems : Nat → List Char → Option (List Json × List Char)
  | 0, _ => none
  | fuel + 1, cs =>
    match parseJsonValue fuel cs with
    | some (v, r) =>
      match skipWs r with
      | ',' :: r2 =>
        match parseJsonElems fuel r2 with
        | some (l, r3) => some (v :: l, r3)
        | none => none
      | ']' :: r2 => some ([v], r2)
      | _ => none
    | none => none

/-- One or more comma-separated `"key": value` pairs followed by the
closing brace. -/
def parseJsonFields : Nat → List Char → Option (List (String × Json) × List Char)
  | 0, _ => none
  | fuel + 1, cs =>
    match skipWs cs with
    | '"' :: rest =>
      match parseStrBody (fuel + 1) rest with
      | some (k, r) =>
        match skipWs r with
        | ':' :: r2 =>
          match parseJsonValue fuel r2 with
          | some (v, r3) =>
            match skipWs r3 with
            | ',' :: r4 =>
              match parseJsonFields fuel r4 with
              | some (l, r5) => some ((String.mk k, v) :: l, r5)
              | none => none
            | '\x7d' :: r4 => some ([(String.mk k, v)], r4)
            | _ => none
          | none => none
        | _ => none
      | none => none
    | _ => none

end

/-- Model of `JSON.parse`: parse one JSON value and require that only
whitespace follows; `none` models the `SyntaxError` throw on invalid JSON.
Lone-surrogate `\u` escapes are decoded approximately since `Char` carries
scalar values only; no claim depends on them. -/
def parseJson (s : String) : Option Json :=
  match parseJsonValue (s.data.length + 1) s.data with
  | some (v, r) => if skipWs r = [] then some v else none
  | none => none

/-- The default seed history as the JSON value `JSON.parse` would return for
its serialized form. -/
def defaultPackagesJson : Json := Json.arr (defaultPackages.map Json.str)

/-- The `loadUsedPackages` function (App.vue lines 77-86), over the persisted
value of the `usedPackages` key (`none` models `localStorage.getItem`
returning `null`). A missing or empty (falsy) value seeds and persists the
default list; otherwise the value goes through `JSON.parse` with no try/catch
around it, so a parse failure propagates as a thrown exception, modelled by
`Except.error`, while any parsed value — array of strings or not — is assigned
to the history unchecked. -/
def loadUsedPackages (stored : Option String) :
    Except String (Json × List (String × String)) :=
  match stored with
  | none =>
      Except.ok (defaultPackagesJson, [("usedPackages", jsonStringifyArr defaultPackages)])
  | some s =>
      if s = "" then
        Except.ok (defaultPackagesJson, [("usedPackages", jsonStringifyArr defaultPackages)])
      else
        match parseJson s with
        | some v => Except.ok (v, [])
        | none => Except.error "SyntaxError: JSON.parse"

/-- Theme state: the `isDarkMode` ref and the persisted value of the
`darkMode` storage key. -/
structure ThemeState where
  isDarkMode : Bool
  darkModeStored : Option String
  deriving DecidableEq

/-- JavaScript string conversion of a boolean, as performed by
`localStorage.setItem('darkMode', isDarkMode.value)`. -/
def jsBoolString (b : Bool) : String := if b then "true" else "false"

/-- The `loadThemePreference` function (App.vue lines 124-128):
`stored === 'true'`. -/
def loadThemePreference (stored : Option String) : Bool := stored == some "true"

/-- The `toggleTheme` function (App.vue lines 131-135): flip the flag and
persist its string form. -/
def toggleTheme (st : ThemeState) : ThemeState :=
  let b := !st.isDarkMode
  ⟨b, some (jsBoolString b)⟩

/-- Bridge from the executable predicate `List.isPrefixOf` to `List.IsPrefix`. -/
lemma prefixOf_correct (l₁ l₂ : List Char) : l₁.isPrefixOf l₂ = true ↔ l₁ <+: l₂ :=
  List.isPrefixOf_iff_prefix

/-- `containsSub hay needle` decides exactly infix (substring) containment. -/
lemma containsSub_correct (hay needle : List Char) :
    containsSub hay needle = true ↔ needle <:+: hay := by
  induction hay with
  | nil =>
    constructor
    · intro h
      have hn : needle = [] := by
        cases needle with
        | nil => rfl
        | cons c t => simp [containsSub, List.isEmpty] at h
      subst hn
      exact ⟨[], [], rfl⟩
    · intro h
      have hn : needle = [] := List.eq_nil_of_sublist_nil h.sublist
      subst hn
      simp [containsSub, List.isEmpty]
  | cons a t ih =>
    simp only [containsSub, Bool.or_eq_true, ih, prefixOf_correct, List.infix_cons_iff]

/-- Membership characterization of the suggestion list. -/
lemma mem_suggestionsOf (st : AppState) (pkg : String) :
    pkg ∈ suggestionsOf st ↔
      pkg ∈ st.usedPackages ∧ st.packageName ≠ "" ∧
      toLowerChars st.packageName <:+: toLowerChars pkg ∧ pkg ≠ st.packageName := by
  by_cases h : st.packageName = ""
  · simp [suggestionsOf, h]
  · simp only [suggestionsOf, if_neg h, List.mem_filter, Bool.and_eq_true,
      containsSub_correct, bne_iff_ne, ne_eq]
    tauto

/-- C1: for every history list and input text, the suggestion list is the
ordered subsequence (sublist) of the history whose entries contain the input as
a case-insensitive substring and are not string-equal to the input; the empty
input yields no suggestions; the input itself never appears, and a
duplicate-free history yields a duplicate-free suggestion list. -/
theorem c1_suggestions_characterization (st : AppState) :
    (st.packageName = "" → suggestionsOf st = []) ∧
    List.Sublist (suggestionsOf st) st.usedPackages ∧
    (∀ pkg, pkg ∈ suggestionsOf st ↔
      pkg ∈ st.usedPackages ∧ st.packageName ≠ "" ∧
      toLowerChars st.packageName <:+: toLowerChars pkg ∧ pkg ≠ st.packageName) ∧
    st.packageName ∉ suggestionsOf st ∧
    (st.usedPackages.Nodup → (suggestionsOf st).Nodup) := by
  refine ⟨fun h => by simp [suggestionsOf, h], ?_, mem_suggestionsOf st, ?_, ?_⟩
  · by_cases h : st.packageName = ""
    · simp [suggestionsOf, h]
    · simpa only [suggestionsOf, if_neg h] using List.filter_sublist _
  · intro hmem
    rcases (mem_suggestionsOf st _).mp hmem with ⟨-, -, -, hne⟩
    exact hne rfl
  · intro hnd
    by_cases h : st.packageName = ""
    · simp [suggestionsOf, h]
    · simpa only [suggestionsOf, if_neg h] using hnd.filter _

/-- Concrete instances of C1: empty input gives no suggestions; the filter is
case-insensitive ("PAN" matches "pandas"); a duplicate-free history gives a
duplicate-free suggestion list. -/
theorem c1_witness :
    suggestionsOf ⟨"", ["pandas"], true, -1, false⟩ = [] ∧
    "pandas" ∈ suggestionsOf ⟨"PAN", ["pandas"], true, -1, false⟩ ∧
    (suggestionsOf ⟨"pan", ["pandas", "numpy"], true, -1, false⟩).Nodup :=
  ⟨(c1_suggestions_characterization _).1 rfl,
   ((c1_suggestions_characterization _).2.2.1 "pandas").mpr (by decide),
   (c1_suggestions_characterization _).2.2.2.2 (by decide)⟩

/-- C3: pressing Escape always leaves the suggestion dropdown hidden (the
rendering condition `showSuggestions && suggestions.length` is false) and the
selected index untouched. When the suggestion list is non-empty the handler
clears `showSuggestions`; when it is empty the handler returns early, and the
dropdown is hidden because the list is empty. -/
theorem c3_escape_hides_suggestions (st : AppState) :
    suggestionsVisible (handleKeydown st Key.escape) = false ∧
    (handleKeydown st Key.escape).selectedIndex = st.selectedIndex := by
  by_cases h : (suggestionsOf st).length = 0
  · refine ⟨?_, by simp [handleKeydown, h]⟩
    have he : suggestionsOf st = [] := List.length_eq_zero.mp h
    simp [handleKeydown, h, suggestionsVisible, he, List.isEmpty_iff]
  · refine ⟨?_, by simp [handleKeydown, h]⟩
    simp [handleKeydown, h, suggestionsVisible]

/-- C5: for every mirror entry and non-empty package name the generated command
is literally `pip install -i <url> <name>`, and the empty package name yields
the empty string. -/
theorem c5_generateCommand_spec (mirror : Mirror) (pkg : String) :
    (pkg ≠ "" → generateCommand mirror pkg = "pip install -i " ++ mirror.url ++ " " ++ pkg) ∧
    generateCommand mirror "" = "" := by
  constructor
  · intro h
    simp [generateCommand, h]
  · simp [generateCommand]

/-- Concrete instance of C5 at the first configured mirror, matching the
worked example in the specification. -/
theorem c5_witness :
    generateCommand ⟨"https://mirrors.aliyun.com/pypi/simple", "阿里云镜像站"⟩ "pandas" =
      "pip install -i https://mirrors.aliyun.com/pypi/simple pandas" ∧
    generateCommand ⟨"https://mirrors.aliyun.com/pypi/simple", "阿里云镜像站"⟩ "" = "" := by
  constructor
  · rw [(c5_generateCommand_spec ⟨"https://mirrors.aliyun.com/pypi/simple", "阿里云镜像站"⟩
        "pandas").1 (by decide)]
    decide
  · exact (c5_generateCommand_spec
      ⟨"https://mirrors.aliyun.com/pypi/simple", "阿里云镜像站"⟩ "pandas").2

/-- C10: pressing Enter with no suggestion selected (negative index, in
particular −1) leaves the whole state unchanged — input text, index and
visibility included; committing a suggestion can therefore only happen when
the selected index is at least 0. -/
theorem c10_enter_without_selection (st : AppState) (h : st.selectedIndex < 0) :
    handleKeydown st Key.enter = st := by
  by_cases hl : (suggestionsOf st).length = 0
  · simp [handleKeydown, hl]
  · simp [handleKeydown, hl, not_le.mpr h]

/-- Concrete instance of C10: a state with one suggestion and index −1 is left
unchanged by Enter. -/
theorem c10_witness :
    suggestionsOf ⟨"pan", ["pandas"], true, -1, false⟩ ≠ [] ∧
    handleKeydown ⟨"pan", ["pandas"], true, -1, false⟩ Key.enter =
      ⟨"pan", ["pandas"], true, -1, false⟩ :=
  ⟨by decide, c10_enter_without_selection _ (by decide)⟩

/-- C2 counterexample: the persisted value `"corrupt"` is truthy but not valid
JSON, so `loadUsedPackages` propagates the `JSON.parse` exception instead of
falling back to the default seed list — the claim that loading never fails is
false on the code (there is no try/catch around `JSON.parse`). -/
theorem c2_counterexample :
    loadUsedPackages (some "corrupt") = Except.error "SyntaxError: JSON.parse" := rfl

/-- C2 amended: a missing or empty persisted value is treated as no history and
falls back to (and persists) the default seed list; a non-empty value is fed to
`JSON.parse` with no exception handling, so a value that is not valid JSON
makes loading throw, while any parsed JSON value is adopted as the history
unchecked, with no write. -/
theorem c2_loadUsedPackages_amended :
    loadUsedPackages none =
      Except.ok (defaultPackagesJson, [("usedPackages", jsonStringifyArr defaultPackages)]) ∧
    loadUsedPackages (some "") =
      Except.ok (defaultPackagesJson, [("usedPackages", jsonStringifyArr defaultPackages)]) ∧
    (∀ s, parseJson s = none → s ≠ "" →
      loadUsedPackages (some s) = Except.error "SyntaxError: JSON.parse") ∧
    (∀ s v, parseJson s = some v → loadUsedPackages (some s) = Except.ok (v, [])) := by
  have h0 : parseJson "" = none := rfl
  refine ⟨rfl, by simp [loadUsedPackages], ?_, ?_⟩
  · intro s hp hs
    simp [loadUsedPackages, hs, hp]
  · intro s v hp
    by_cases hs : s = ""
    · subst hs
      rw [h0] at hp
      cases hp
    · simp [loadUsedPackages, hs, hp]

/-- Concrete instances of C2 as amended: the corrupt value throws; a valid
persisted array is adopted verbatim. -/
theorem c2_witness :
    loadUsedPackages (some "corrupt") = Except.error "SyntaxError: JSON.parse" ∧
    loadUsedPackages (some "[\"numpy\"]") = Except.ok (Json.arr [Json.str "numpy"], []) :=
  ⟨c2_loadUsedPackages_amended.2.2.1 "corrupt" rfl (by decide),
   c2_loadUsedPackages_amended.2.2.2 "[\"numpy\"]" (Json.arr [Json.str "numpy"]) rfl⟩

/-- Iterated ArrowDown presses. -/
def pressDown : Nat → AppState → AppState
  | 0, st => st
  | n + 1, st => pressDown n (handleKeydown st Key.arrowDown)

/-- With a non-empty suggestion list, ArrowDown only rewrites the index. -/
lemma handleKeydown_arrowDown (st : AppState) (h : suggestionsOf st ≠ []) :
    handleKeydown st Key.arrowDown =
      { st with selectedIndex := Int.tmod (st.selectedIndex + 1) (suggestionsOf st).length } := by
  have hl : ¬((suggestionsOf st).length = 0) := by
    simpa [List.length_eq_zero] using h
  simp [handleKeydown, hl]

/-- The suggestion list does not depend on the selected index. -/
lemma suggestionsOf_setIndex (st : AppState) (i : Int) :
    suggestionsOf { st with selectedIndex := i } = suggestionsOf st := rfl

/-- After `k` ArrowDown presses from an in-range index, the index is the start
plus `k`, modulo the number of suggestions. -/
lemma pressDown_selectedIndex (k : Nat) (st : AppState) (h : suggestionsOf st ≠ [])
    (h0 : 0 ≤ st.selectedIndex)
    (h1 : st.selectedIndex < ((suggestionsOf st).length : Int)) :
    (pressDown k st).selectedIndex =
      (st.selectedIndex + k) % ((suggestionsOf st).length : Int) := by
  induction k generalizing st with
  | zero =>
    simpa [pressDown] using (Int.emod_eq_of_lt h0 h1).symm
  | succ n ih =>
    have hNpos : (0 : Int) < ((suggestionsOf st).length : Int) := by
      have := List.length_pos.mpr h
      exact_mod_cast this
    have hstep : handleKeydown st Key.arrowDown =
        { st with selectedIndex := Int.tmod (st.selectedIndex + 1) (suggestionsOf st).length } :=
      handleKeydown_arrowDown st h
    have htm : Int.tmod (st.selectedIndex + 1) ((suggestionsOf st).length : Int) =
        (st.selectedIndex + 1) % ((suggestionsOf st).length : Int) :=
      Int.tmod_eq_emod (by omega) (by omega)
    have hsugg : suggestionsOf (handleKeydown st Key.arrowDown) = suggestionsOf st := by
      rw [hstep, suggestionsOf_setIndex]
    have hidx : (handleKeydown st Key.arrowDown).selectedIndex =
        (st.selectedIndex + 1) % ((suggestionsOf st).length : Int) := by
      rw [hstep]
      exact htm
    have h0' : 0 ≤ (handleKeydown st Key.arrowDown).selectedIndex := by
      rw [hidx]
      exact Int.emod_nonneg _ (by omega)
    have h1' : (handleKeydown st Key.arrowDown).selectedIndex <
        ((suggestionsOf (handleKeydown st Key.arrowDown)).length : Int) := by
      rw [hidx, hsugg]
      exact Int.emod_lt_of_pos _ hNpos
    have hrec := ih (handleKeydown st Key.arrowDown) (by rw [hsugg]; exact h) h0' h1'
    rw [pressDown, hrec, hsugg, hidx, Int.emod_add_emod]
    congr 1
    push_cast
    ring

/-- C4 counterexample: with one suggestion and the initial index −1, pressing
ArrowDown N = 1 times yields index 0, not the starting value −1; the round trip
claimed for every starting index "including −1" fails at −1. -/
theorem c4_counterexample :
    (suggestionsOf ⟨"pan", ["pandas"], true, -1, false⟩).length = 1 ∧
    (pressDown 1 ⟨"pan", ["pandas"], true, -1, false⟩).selectedIndex = 0 ∧
    (0 : Int) ≠ -1 := by
  decide

/-- C4 amended: each ArrowDown press advances the index to
`(index + 1) mod N` (so the first press from −1 selects 0), and pressing
ArrowDown N times returns the index to its starting value for every starting
index in `[0, N−1]`; from −1 the N presses end at `N−1` instead. -/
theorem c4_down_navigation (st : AppState) (h : suggestionsOf st ≠ []) :
    ((-1 : Int) ≤ st.selectedIndex →
      (handleKeydown st Key.arrowDown).selectedIndex =
        (st.selectedIndex + 1) % ((suggestionsOf st).length : Int)) ∧
    (0 ≤ st.selectedIndex → st.selectedIndex < ((suggestionsOf st).length : Int) →
      (pressDown (suggestionsOf st).length st).selectedIndex = st.selectedIndex) := by
  constructor
  · intro hge
    rw [handleKeydown_arrowDown st h]
    have hN : (0 : Int) ≤ ((suggestionsOf st).length : Int) := Int.natCast_nonneg _
    exact Int.tmod_eq_emod (by omega) hN
  · intro h0 hlt
    rw [pressDown_selectedIndex _ st h h0 hlt]
    rw [show st.selectedIndex + (((suggestionsOf st).length : Nat) : Int) =
        st.selectedIndex + ((suggestionsOf st).length : Int) * 1 by ring,
      Int.add_mul_emod_self_left]
    exact Int.emod_eq_of_lt h0 hlt

/-- Concrete instance of C4 as amended: two suggestions, starting index 0; two
presses return to 0, and a single press from 0 gives (0 + 1) mod 2. -/
theorem c4_witness :
    (pressDown (suggestionsOf ⟨"pan", ["pandas", "pango"], true, 0, false⟩).length
        ⟨"pan", ["pandas", "pango"], true, 0, false⟩).selectedIndex = 0 ∧
    (handleKeydown ⟨"pan", ["pandas", "pango"], true, 0, false⟩ Key.arrowDown).selectedIndex =
      ((0 : Int) + 1) %
        ((suggestionsOf ⟨"pan", ["pandas", "pango"], true, 0, false⟩).length : Int) :=
  ⟨(c4_down_navigation _ (by decide)).2 (by decide) (by decide),
   (c4_down_navigation _ (by decide)).1 (by decide)⟩

/-- C6: saving a package already in the history leaves it unchanged and writes
nothing; saving a non-empty package not in the history prepends it and persists
the new list. -/
theorem c6_savePackage_spec (used : List String) (pkg : String) :
    (pkg ∈ used → savePackage used pkg = (used, [])) ∧
    (pkg ≠ "" → pkg ∉ used →
      savePackage used pkg =
        (pkg :: used, [("usedPackages", jsonStringifyArr (pkg :: used))])) := by
  constructor
  · intro h
    simp [savePackage, h]
  · intro h hn
    simp [savePackage, h, hn]

/-- Concrete instances of C6: both branches. -/
theorem c6_witness :
    savePackage ["pandas"] "pandas" = (["pandas"], []) ∧
    savePackage ["pandas"] "numpy" =
      ("numpy" :: ["pandas"], [("usedPackages", jsonStringifyArr ("numpy" :: ["pandas"]))]) :=
  ⟨(c6_savePackage_spec ["pandas"] "pandas").1 (by decide),
   (c6_savePackage_spec ["pandas"] "numpy").2 (by decide) (by decide)⟩

/-- C7: deleting a package removes every occurrence of it (and nothing else,
preserving order), and deleting a package not in the history is the identity. -/
theorem c7_deletePackage_spec (used : List String) (pkg : String) :
    List.Sublist (deletePackage used pkg).1 used ∧
    pkg ∉ (deletePackage used pkg).1 ∧
    (∀ q, q ∈ (deletePackage used pkg).1 ↔ q ∈ used ∧ q ≠ pkg) ∧
    (pkg ∉ used → (deletePackage used pkg).1 = used) := by
  refine ⟨List.filter_sublist _, ?_, ?_, ?_⟩
  · simp [deletePackage, List.mem_filter]
  · intro q
    simp [deletePackage, List.mem_filter, bne_iff_ne]
  · intro h
    simp only [deletePackage]
    rw [List.filter_eq_self]
    intro a ha
    rw [bne_iff_ne]
    exact fun he => h (he ▸ ha)

/-- Concrete instances of C7: the deleted name is gone; deleting an absent name
changes nothing. -/
theorem c7_witness :
    "numpy" ∉ (deletePackage ["pandas", "numpy"] "numpy").1 ∧
    (deletePackage ["pandas"] "numpy").1 = ["pandas"] :=
  ⟨(c7_deletePackage_spec ["pandas", "numpy"] "numpy").2.1,
   (c7_deletePackage_spec ["pandas"] "numpy").2.2.2 (by decide)⟩

/-- C8: when the clipboard write fails, the catch block only logs: the whole
state is returned unchanged — in particular the history and the success flag —
and no storage write is issued. -/
theorem c8_copy_failure_frame (st : AppState) :
    copyToClipboard false st = (st, []) ∧
    (copyToClipboard false st).1.usedPackages = st.usedPackages ∧
    (copyToClipboard false st).1.showCopyMessage = st.showCopyMessage :=
  ⟨rfl, rfl, rfl⟩

/-- C9: toggling the theme twice restores the boolean, and restores the
persisted string when it was the string form of the boolean; after any single
toggle the persisted value is the literal `"true"` or `"false"` matching the
current boolean. -/
theorem c9_toggleTheme_roundtrip (b : Bool) (s : Option String) :
    (toggleTheme (toggleTheme ⟨b, s⟩)).isDarkMode = b ∧
    (s = some (jsBoolString b) → toggleTheme (toggleTheme ⟨b, s⟩) = ⟨b, s⟩) ∧
    (toggleTheme ⟨b, s⟩).darkModeStored =
      some (jsBoolString ((toggleTheme ⟨b, s⟩).isDarkMode)) ∧
    ((toggleTheme ⟨b, s⟩).darkModeStored = some "true" ∨
      (toggleTheme ⟨b, s⟩).darkModeStored = some "false") := by
  refine ⟨?_, ?_, ?_, ?_⟩ <;> cases b <;> simp [toggleTheme, jsBoolString] <;>
    (intro h; simp [h])

/-- Concrete instance of C9: a light theme persisted as `"false"` round-trips. -/
theorem c9_witness :
    toggleTheme (toggleTheme ⟨false, some "false"⟩) = ⟨false, some "false"⟩ :=
  (c9_toggleTheme_roundtrip false (some "false")).2.1 rfl

end PipMirror
